import Mathlib

/-!
Shallow embedding of the algorithmic core of the
`synology_virtual_album` integration
(`custom_components/synology_virtual_album/synology_photos.py`),
together with theorems settling the specification claims about it.

Conventions of the embedding:
* Python `datetime.date` values become the `Date` structure below; only the
  fields the code reads (year, month, day) are modelled, and `calendar.isleap`
  and `timetuple().tm_yday` are reproduced as `isleap` and `dayOfYear`.
* `is_today` / `is_this_week` read the wall clock via `datetime.date.today()`;
  the embedding passes that reference date explicitly as the first argument.
* Python dicts keyed by item id become association lists `List (Int × Nat)`
  with `dictGet` / `dictUpdate` mirroring `dict.get` / `dict.update`.
* The configuration values read via `config_data.get(..., 0)` are the
  non-negative machine integers produced by the config flow's number sliders,
  modelled as `Nat`.
* `random.shuffle` is modelled by an explicit function argument `shuffle`;
  theorems that depend on it assume only that it permutes its input.
* Awaited fallible calls (the paginated source-item fetch) are modelled as an
  `Except` value passed in; an exception in Python propagates before any field
  of the session object has been mutated, which the embedding renders by
  returning the entering state unchanged together with the error.
-/

/-- Mirrors Python `calendar.isleap`: divisible by 4 and not by 100 unless by 400. -/
def isleap (y : Nat) : Bool :=
  y % 4 == 0 && (y % 100 != 0 || y % 400 == 0)

/-- A calendar date as the code uses it: only year, month and day are read. -/
structure Date where
  year : Nat
  month : Nat
  day : Nat
deriving DecidableEq, Repr

/-- Number of days of a month (1-12), depending on leapness of the year. -/
def daysInMonth (leap : Bool) (m : Nat) : Nat :=
  match m with
  | 1 => 31
  | 2 => if leap then 29 else 28
  | 3 => 31
  | 4 => 30
  | 5 => 31
  | 6 => 30
  | 7 => 31
  | 8 => 31
  | 9 => 30
  | 10 => 31
  | 11 => 30
  | 12 => 31
  | _ => 0

/-- Validity of a `Date` as Python's `datetime.date` enforces it on
construction and on `replace`. -/
def Date.valid (d : Date) : Prop :=
  1 ≤ d.month ∧ d.month ≤ 12 ∧ 1 ≤ d.day ∧ d.day ≤ daysInMonth (isleap d.year) d.month

instance (d : Date) : Decidable d.valid := by
  unfold Date.valid; infer_instance

/-- Mirrors `timetuple().tm_yday`: one-based day of year. -/
def dayOfYear (d : Date) : Nat :=
  ((List.range (d.month - 1)).map (fun i => daysInMonth (isleap d.year) (i + 1))).sum + d.day

/-- Embedding of `_make_day_comparable` (synology_photos.py lines 75-93): if the
leapness of the two years differs, a Feb 29 date is rewritten to Feb 28 in the
other date's year, and afterwards any date still in a leap year is moved to the
other date's year. -/
def _make_day_comparable (date1 date2 : Date) : Date × Date :=
  if isleap date1.year ≠ isleap date2.year then
    let (date1, date2) :=
      if date1.month = 2 ∧ date1.day = 29 then
        ({ date1 with day := 28, year := date2.year }, date2)
      else if date2.month = 2 ∧ date2.day = 29 then
        (date1, { date2 with day := 28, year := date1.year })
      else
        (date1, date2)
    let date1 := if isleap date1.year then { date1 with year := date2.year } else date1
    let date2 := if isleap date2.year then { date2 with year := date1.year } else date2
    (date1, date2)
  else
    (date1, date2)

/-- Embedding of `is_today` (lines 96-105), with `datetime.date.today()` passed
explicitly as `today`. -/
def is_today (today compare_date : Date) : Bool :=
  let p := _make_day_comparable today compare_date
  let today_clean := p.1
  let compare_clean := p.2
  compare_clean.month == today_clean.month && compare_clean.day == today_clean.day

/-- Embedding of `is_this_week` (lines 108-126), with `datetime.date.today()`
passed explicitly as `today`. Day-of-year arithmetic is done in `Int` because
the wraparound correction makes `today_day` negative. -/
def is_this_week (today compare_date : Date) : Bool :=
  let p := _make_day_comparable today compare_date
  let today_clean := p.1
  let compare_clean := p.2
  let today_day : Int := dayOfYear today_clean
  let compare_day : Int := dayOfYear compare_clean
  let today_day : Int :=
    if compare_day < today_day then
      today_day - (dayOfYear { today_clean with month := 12, day := 31 } : Int)
    else
      today_day
  let delta := compare_day - today_day
  decide (delta ≤ 7)

/-- Modelled from the spec's words for `isWithinWeek` (spec section 4.1): the
absolute day-of-year distance, recomputed with year wraparound when above 7,
compared against 7. Used only to contrast with the code's `is_this_week`. -/
def spec_isWithinWeek (reference candidate : Date) : Bool :=
  let p := _make_day_comparable reference candidate
  let a : Int := dayOfYear p.1
  let b : Int := dayOfYear p.2
  let delta := |a - b|
  let delta :=
    if delta > 7 then
      (min a b + (dayOfYear { p.1 with month := 12, day := 31 } : Int)) - max a b
    else
      delta
  decide (delta ≤ 7)

/-- Embedding of `SynoPhotosItemEx` with the fields the algorithmic core reads:
the item id, file name, thumbnail cache key, capture time (only its date part is
ever used, via `item.time.date()`), and source album id. Dataclass equality in
Python is field-wise, matching the derived `DecidableEq`. -/
structure SynoPhotosItemEx where
  item_id : Int
  file_name : String
  thumbnail_cache_key : String
  time : Date
  source_album_id : Int
deriving DecidableEq, Repr

/-- Lookup in an association list, mirroring Python `dict` lookup by key. -/
def dictGet (d : List (Int × Nat)) (k : Int) : Option Nat :=
  (d.find? (fun p => p.1 == k)).map (fun p => p.2)

/-- Setting one key, mirroring `dict[k] = v`: overwrite if present, append if
absent. -/
def dictInsert (d : List (Int × Nat)) (k : Int) (v : Nat) : List (Int × Nat) :=
  if d.any (fun p => p.1 == k) then
    d.map (fun p => if p.1 == k then (k, v) else p)
  else
    d ++ [(k, v)]

/-- Mirrors Python `dict.update`: fold the incoming pairs into the mapping. -/
def dictUpdate (d kv : List (Int × Nat)) : List (Int × Nat) :=
  kv.foldl (fun acc p => dictInsert acc p.1 p.2) d

/-- Embedding of the `StorageData` TypedDict: the persisted album item ids and
the id-to-last-viewed-ordinal mapping. -/
structure StorageData where
  current_album : List Int
  last_viewed : List (Int × Nat)
deriving DecidableEq, Repr

/-- Configuration values the rebuild reads from the config entry data
(each `config_data.get(..., 0)`), plus whether a current-image entity is
configured (`CONF_CURRENT_IMAGE in config_entry.data`). -/
structure AlbumConfig where
  max_album_images : Nat
  daily_images : Nat
  weekly_images : Nat
  has_current_image : Bool
deriving DecidableEq, Repr

/-- Embedding of `_get_subset` (lines 289-295): return the list unchanged when
it fits, else the slice `photos[:max_count]`. -/
def _get_subset (photos : List SynoPhotosItemEx) (max_count : Nat) : List SynoPhotosItemEx :=
  if photos.length ≤ max_count then photos else photos.take max_count

/-- Embedding of the bucket-building loop of `rebuild_virtual_album`
(lines 346-350): each item goes to the day bucket if `is_today`, else to the
week bucket if `is_this_week`, else to neither; order is preserved. -/
def bucket_items (today : Date) :
    List SynoPhotosItemEx → List SynoPhotosItemEx × List SynoPhotosItemEx
  | [] => ([], [])
  | item :: rest =>
    let dw := bucket_items today rest
    if is_today today item.time then
      (item :: dw.1, dw.2)
    else if is_this_week today item.time then
      (dw.1, item :: dw.2)
    else
      (dw.1, dw.2)

/-- Embedding of the stable recency sort (line 331):
`source_items.sort(key=lambda item: last_viewed.get(item.item_id, 0))`. -/
def sortByLastViewed (last_viewed : List (Int × Nat)) (items : List SynoPhotosItemEx) :
    List SynoPhotosItemEx :=
  items.mergeSort (fun a b =>
    decide ((dictGet last_viewed a.item_id).getD 0 ≤ (dictGet last_viewed b.item_id).getD 0))

/-- Embedding of `daily_max` (line 334): `min(config_data.get(CONF_DAILY_IMAGES, 0),
max_album_items)` — the configured value is used as an absolute item count
clamped to the album maximum. -/
def daily_max (daily_images max_album_items : Nat) : Nat :=
  min daily_images max_album_items

/-- Embedding of `weekly_max` (line 335). -/
def weekly_max (weekly_images max_album_items : Nat) : Nat :=
  min weekly_images max_album_items

/-- The selection stage of `rebuild_virtual_album` (lines 333-371) applied to
the already shuffled-and-sorted source list: bucket the items, take the capped
subsets of the day and week buckets, remove the used items from the pool, and
fill the remaining budget from the pool. `get_max_items m` is
`min(m, max_album_items - len(new_items))` read at call time. -/
def select_from_sorted (source_items : List SynoPhotosItemEx) (cfg : AlbumConfig)
    (today : Date) : List SynoPhotosItemEx :=
  let max_album_items := cfg.max_album_images
  let dMax := daily_max cfg.daily_images max_album_items
  let wMax := weekly_max cfg.weekly_images max_album_items
  if dMax > 0 ∨ wMax > 0 then
    let buckets := bucket_items today source_items
    let this_day_items := buckets.1
    let this_week_items := buckets.2
    let new_items := _get_subset this_day_items (min dMax (max_album_items - 0))
    let new_items := new_items ++
      _get_subset this_week_items (min wMax (max_album_items - new_items.length))
    let unused_items := source_items.filter (fun item => decide (¬ item ∈ new_items))
    new_items ++ _get_subset unused_items (min max_album_items (max_album_items - new_items.length))
  else
    _get_subset source_items (min max_album_items (max_album_items - 0))

/-- The selection pipeline of `rebuild_virtual_album` from the shuffled source
list: sort by stored recency when any last-viewed data is present (lines
328-331; an absent store or empty mapping is falsy and skips the sort), then
select. -/
def select_album (shuffled : List SynoPhotosItemEx) (last_viewed : List (Int × Nat))
    (cfg : AlbumConfig) (today : Date) : List SynoPhotosItemEx :=
  let source_items :=
    if last_viewed.isEmpty then shuffled else sortByLastViewed last_viewed shuffled
  select_from_sorted source_items cfg today

/-- Embedding of `_write_store` (lines 212-227): read the current durable data
(defaulting when absent), merge truthy `last_viewed` via `dict.update`, replace
`current_album` when the new id list is truthy, and persist the result. -/
def _write_store (cur : Option StorageData) (last_viewed : Option (List (Int × Nat)))
    (album_items : Option (List Int)) : StorageData :=
  let current_data := cur.getD { current_album := [], last_viewed := [] }
  let current_data :=
    match last_viewed with
    | some lv =>
      if lv.isEmpty then current_data
      else { current_data with last_viewed := dictUpdate current_data.last_viewed lv }
    | none => current_data
  match album_items with
  | some ids =>
    if ids.isEmpty then current_data
    else { current_data with current_album := ids }
  | none => current_data

/-- The session state the algorithmic core mutates: the active album and the
durable store contents (`none` when never written). -/
structure SessionState where
  current_album_items : List SynoPhotosItemEx
  store : Option StorageData
deriving DecidableEq, Repr

/-- Embedding of `rebuild_virtual_album` (lines 314-384). `fetch` is the
outcome of `_get_source_items` (a raised exception propagates before any field
of the session has been mutated, so the state is returned unchanged with the
error); `shuffle` stands for `random.shuffle`; `today` is
`datetime.date.today()` and `today_ordinal` its `toordinal()`. -/
def rebuild_virtual_album {ε : Type} (st : SessionState)
    (fetch : Except ε (List SynoPhotosItemEx))
    (shuffle : List SynoPhotosItemEx → List SynoPhotosItemEx)
    (cfg : AlbumConfig) (today : Date) (today_ordinal : Nat) :
    SessionState × Except ε Unit :=
  match fetch with
  | .error e => (st, .error e)
  | .ok source_items =>
    let shuffled := shuffle source_items
    let stored_last_viewed : List (Int × Nat) :=
      match st.store with
      | some stored_data => stored_data.last_viewed
      | none => []
    let new_items := select_album shuffled stored_last_viewed cfg today
    let new_ids := new_items.map (fun item => item.item_id)
    let last_viewed : Option (List (Int × Nat)) :=
      if cfg.has_current_image then none
      else some (new_ids.map (fun i => (i, today_ordinal)))
    ({ current_album_items := new_items,
       store := some (_write_store st.store last_viewed (some new_ids)) },
     .ok ())

/-- Embedding of the album-restoring body of `_async_init` (lines 176-200): when
the store holds a non-empty previously generated album, each stored id is
matched against the freshly fetched source items and the first match is
appended to the active album. -/
def _async_init (stored : Option StorageData) (source_items : List SynoPhotosItemEx) :
    List SynoPhotosItemEx :=
  match stored with
  | none => []
  | some stored_data =>
    if stored_data.current_album.isEmpty then []
    else
      stored_data.current_album.filterMap
        (fun item_id => source_items.find? (fun item => item.item_id == item_id))

/-- Embedding of `get_virtual_album_items` (lines 386-390): rebuild first when
the active album is empty, then return the active album. -/
def get_virtual_album_items {ε : Type} (st : SessionState)
    (fetch : Except ε (List SynoPhotosItemEx))
    (shuffle : List SynoPhotosItemEx → List SynoPhotosItemEx)
    (cfg : AlbumConfig) (today : Date) (today_ordinal : Nat) :
    SessionState × Except ε (List SynoPhotosItemEx) :=
  if st.current_album_items.isEmpty then
    match rebuild_virtual_album st fetch shuffle cfg today today_ordinal with
    | (st2, .ok _) => (st2, .ok st2.current_album_items)
    | (st2, .error e) => (st2, .error e)
  else
    (st, .ok st.current_album_items)

/-- Mirrors `STORE_INTERVAL_SECONDS = 10 * 60`. -/
def STORE_INTERVAL_SECONDS : Nat := 10 * 60

/-- The flush-relevant state of the session: time of last store (`none` until
first trigger), whether a store task is in flight, and the buffered
id-to-ordinal pairs. -/
structure FlushState where
  last_store : Option Nat
  running_store : Bool
  last_viewed : List (Int × Nat)
deriving DecidableEq, Repr

/-- Embedding of `_queue_cache_write` (lines 229-246) as a state transition at
wall-clock time `now` (seconds). Returns the new state, the snapshot handed to
a newly started store task (`none` when no save is started), and whether the
store-still-running warning was logged. -/
def _queue_cache_write (st : FlushState) (now : Nat) :
    FlushState × Option (List (Int × Nat)) × Bool :=
  match st.last_store with
  | none => ({ st with last_store := some now }, none, false)
  | some last =>
    if now - last > STORE_INTERVAL_SECONDS then
      if st.running_store = false then
        ({ last_store := some now, running_store := true, last_viewed := [] },
         some st.last_viewed, false)
      else
        (st, none, true)
    else
      (st, none, false)

/-- A sample photo item used by concrete witnesses and counterexamples. -/
def itemA : SynoPhotosItemEx := ⟨1, "a.jpg", "keyA", ⟨2020, 1, 1⟩, 7⟩

/-- A second sample photo item. -/
def itemB : SynoPhotosItemEx := ⟨2, "b.jpg", "keyB", ⟨2021, 5, 4⟩, 7⟩

/-- A third sample photo item. -/
def itemC : SynoPhotosItemEx := ⟨3, "c.jpg", "keyC", ⟨2022, 8, 9⟩, 7⟩

/-- Unfolding lemma: `_get_subset` is exactly `List.take`. -/
theorem get_subset_eq_take (photos : List SynoPhotosItemEx) (n : Nat) :
    _get_subset photos n = photos.take n := by
  unfold _get_subset
  split_ifs with h
  · exact (List.take_of_length_le h).symm
  · rfl

/-- Length of a `_get_subset` result. -/
theorem get_subset_length_eq (photos : List SynoPhotosItemEx) (n : Nat) :
    (_get_subset photos n).length = min n photos.length := by
  rw [get_subset_eq_take, List.length_take]

/-- A `_get_subset` result is a sublist of its input. -/
theorem get_subset_sublist (photos : List SynoPhotosItemEx) (n : Nat) :
    (_get_subset photos n).Sublist photos := by
  rw [get_subset_eq_take]; exact List.take_sublist n photos

/-- A valid February 29 date lies in a leap year. -/
theorem feb29_leap {d : Date} (hv : d.valid) (hm : d.month = 2) (hd : d.day = 29) :
    isleap d.year = true := by
  obtain ⟨-, -, -, h4⟩ := hv
  rw [hm, hd] at h4
  cases h : isleap d.year
  · rw [h] at h4; simp [daysInMonth] at h4
  · rfl

/-- Changing only the year of a valid date that is not February 29 yields a
valid date, whatever the new year's leapness. -/
theorem valid_year_change {d : Date} (y : Nat) (hv : d.valid)
    (hno : ¬(d.month = 2 ∧ d.day = 29)) : ({ d with year := y } : Date).valid := by
  obtain ⟨h1, h2, h3, h4⟩ := hv
  refine ⟨h1, h2, h3, ?_⟩
  have hm : d.month = 1 ∨ d.month = 2 ∨ d.month = 3 ∨ d.month = 4 ∨ d.month = 5 ∨
      d.month = 6 ∨ d.month = 7 ∨ d.month = 8 ∨ d.month = 9 ∨ d.month = 10 ∨
      d.month = 11 ∨ d.month = 12 := by omega
  rcases hm with h|h|h|h|h|h|h|h|h|h|h|h <;>
    rw [h] at h4 ⊢ <;>
    simp only [daysInMonth] at h4 ⊢ <;>
    first
      | assumption
      | (cases hy : isleap y <;> cases hz : isleap d.year <;>
          rw [hz] at h4 <;> simp_all <;> omega)

/-- Inserting key `k` makes `k` look up to the inserted value. -/
theorem dictGet_dictInsert_self (d : List (Int × Nat)) (k : Int) (v : Nat) :
    dictGet (dictInsert d k v) k = some v := by
  unfold dictInsert
  split_ifs with h
  · have hpred : (fun (q : Int × Nat) => q.1 == k) ∘ (fun p => if p.1 == k then (k, v) else p)
        = fun q => q.1 == k := by
      funext q
      by_cases hq : q.1 = k <;> simp [hq]
    rw [dictGet, List.find?_map, hpred]
    cases hf : d.find? (fun p => p.1 == k) with
    | none =>
      rw [List.find?_eq_none] at hf
      rw [List.any_eq_true] at h
      obtain ⟨p0, hm, hp⟩ := h
      exact absurd hp (by simpa using hf p0 hm)
    | some q0 =>
      have hq0 := List.find?_some hf
      simp only [beq_iff_eq] at hq0
      simp [hq0]
  · rw [dictGet, List.find?_append]
    have hnone : d.find? (fun p => p.1 == k) = none := by
      rw [List.find?_eq_none]
      intro p hp
      rw [List.any_eq_true] at h
      push_neg at h
      exact h p hp
    rw [hnone]
    simp

/-- Inserting key `k` leaves every other key's lookup unchanged. -/
theorem dictGet_dictInsert_other (d : List (Int × Nat)) (k k' : Int) (v : Nat)
    (hne : k' ≠ k) : dictGet (dictInsert d k v) k' = dictGet d k' := by
  unfold dictInsert
  split_ifs with h
  · have hpred : (fun (q : Int × Nat) => q.1 == k') ∘ (fun p => if p.1 == k then (k, v) else p)
        = fun q => q.1 == k' := by
      funext q
      by_cases hq : q.1 = k
      · simp [hq, Ne.symm hne]
      · simp [hq]
    rw [dictGet, List.find?_map, hpred, dictGet]
    cases hf : d.find? (fun p => p.1 == k') with
    | none => rfl
    | some q0 =>
      have hq0 := List.find?_some hf
      simp only [beq_iff_eq] at hq0
      have hq0k : ¬ q0.1 = k := by
        intro hc
        rw [hc] at hq0
        exact hne hq0.symm
      simp [hq0k]
  · rw [dictGet, List.find?_append]
    have hlast : List.find? (fun p => p.1 == k') [(k, v)] = none := by
      simp [Ne.symm hne]
    rw [hlast]
    simp [dictGet]

/-- Merging pairs whose keys avoid `k` leaves `k`'s lookup unchanged. -/
theorem dictGet_dictUpdate_not_mem (kv d : List (Int × Nat)) (k : Int)
    (h : ¬ k ∈ kv.map Prod.fst) : dictGet (dictUpdate d kv) k = dictGet d k := by
  induction kv generalizing d with
  | nil => rfl
  | cons p rest ih =>
    simp only [List.map_cons, List.mem_cons] at h
    push_neg at h
    have step : dictUpdate d (p :: rest) = dictUpdate (dictInsert d p.1 p.2) rest := rfl
    rw [step, ih _ (by simpa using h.2), dictGet_dictInsert_other _ _ _ _ h.1]

/-- After merging the constant-valued pairs built from `ids`, every id in `ids`
looks up to that constant value. -/
theorem dictGet_dictUpdate_const (ids : List Int) (d : List (Int × Nat)) (v : Nat) (k : Int)
    (hk : k ∈ ids) :
    dictGet (dictUpdate d (ids.map (fun i => (i, v)))) k = some v := by
  induction ids generalizing d with
  | nil => cases hk
  | cons i rest ih =>
    have step : dictUpdate d ((i, v) :: rest.map (fun i => (i, v)))
        = dictUpdate (dictInsert d i v) (rest.map (fun i => (i, v))) := rfl
    rw [List.map_cons, step]
    by_cases hmem : k ∈ rest
    · exact ih _ hmem
    · have hki : k = i := by
        rcases List.mem_cons.mp hk with h | h
        · exact h
        · exact absurd h hmem
      subst hki
      rw [dictGet_dictUpdate_not_mem _ _ _ (by simpa using hmem)]
      exact dictGet_dictInsert_self d k v

/-- The `last_viewed` component written by `_write_store` when recency data is
passed: merged via `dict.update` unless the passed mapping is falsy. -/
theorem write_store_last_viewed (cur : Option StorageData) (lv : List (Int × Nat))
    (ids : Option (List Int)) :
    (_write_store cur (some lv) ids).last_viewed =
      if lv.isEmpty then (cur.getD ⟨[], []⟩).last_viewed
      else dictUpdate (cur.getD ⟨[], []⟩).last_viewed lv := by
  unfold _write_store
  rcases ids with _ | l <;> dsimp only <;> split_ifs <;> rfl

/-- The day bucket is a sublist of the scanned items. -/
theorem bucket_day_sublist (today : Date) (l : List SynoPhotosItemEx) :
    (bucket_items today l).1.Sublist l := by
  induction l with
  | nil => simp [bucket_items]
  | cons a rest ih =>
    simp only [bucket_items]
    split_ifs <;> dsimp only
    · exact ih.cons₂ a
    · exact ih.cons a
    · exact ih.cons a

/-- The week bucket is a sublist of the scanned items. -/
theorem bucket_week_sublist (today : Date) (l : List SynoPhotosItemEx) :
    (bucket_items today l).2.Sublist l := by
  induction l with
  | nil => simp [bucket_items]
  | cons a rest ih =>
    simp only [bucket_items]
    split_ifs <;> dsimp only
    · exact ih.cons a
    · exact ih.cons₂ a
    · exact ih.cons a

/-- The two buckets together use each scanned position at most once. -/
theorem bucket_append_subperm (today : Date) (l : List SynoPhotosItemEx) :
    ((bucket_items today l).1 ++ (bucket_items today l).2).Subperm l := by
  induction l with
  | nil => simp [bucket_items]
  | cons a rest ih =>
    simp only [bucket_items]
    split_ifs <;> dsimp only
    · rw [List.cons_append]
      exact (List.subperm_cons a).mpr ih
    · exact (List.perm_middle.subperm).trans ((List.subperm_cons a).mpr ih)
    · exact ih.cons_right a

/-- A list splits lengthwise into the elements satisfying a predicate and the
rest. -/
theorem length_filter_add_length_filter_not {α : Type} (p : α → Bool) (l : List α) :
    (l.filter p).length + (l.filter (fun x => !(p x))).length = l.length := by
  induction l with
  | nil => rfl
  | cons a t ih => cases h : p a <;> simp [h] <;> omega

/-- Removing the members of a sub-permutation from a list leaves room for the
sub-permutation itself inside the original length. -/
theorem subperm_length_add_filter_le (sub l : List SynoPhotosItemEx)
    (h : sub.Subperm l) :
    sub.length + (l.filter (fun item => decide (¬ item ∈ sub))).length ≤ l.length := by
  have h1 : sub.length ≤ (l.filter (fun item => decide (item ∈ sub))).length := by
    have hfs : sub.filter (fun item => decide (item ∈ sub)) = sub :=
      List.filter_eq_self.mpr (fun a ha => by simpa using ha)
    have h2 := (h.filter (fun item => decide (item ∈ sub))).length_le
    rwa [hfs] at h2
  have h3 : (l.filter (fun item => decide (¬ item ∈ sub)))
      = l.filter (fun item => !(decide (item ∈ sub))) := by
    simp only [decide_not]
  have h4 := length_filter_add_length_filter_not (fun item => decide (item ∈ sub)) l
  rw [h3]
  omega

/-- The selection stage never exceeds the configured album maximum. -/
theorem select_from_sorted_length_le_max (l : List SynoPhotosItemEx) (cfg : AlbumConfig)
    (today : Date) :
    (select_from_sorted l cfg today).length ≤ cfg.max_album_images := by
  unfold select_from_sorted
  dsimp only
  split_ifs with h
  · simp only [List.length_append, get_subset_length_eq]
    omega
  · simp only [get_subset_length_eq]
    omega

/-- The selection stage never exceeds the number of available items. -/
theorem select_from_sorted_length_le_src (l : List SynoPhotosItemEx) (cfg : AlbumConfig)
    (today : Date) :
    (select_from_sorted l cfg today).length ≤ l.length := by
  unfold select_from_sorted
  dsimp only
  split_ifs with h
  · set d := (bucket_items today l).1 with hd
    set w := (bucket_items today l).2 with hw
    set n2 := _get_subset d (min (daily_max cfg.daily_images cfg.max_album_images)
        (cfg.max_album_images - 0)) ++
      _get_subset w (min (weekly_max cfg.weekly_images cfg.max_album_images)
        (cfg.max_album_images -
          (_get_subset d (min (daily_max cfg.daily_images cfg.max_album_images)
            (cfg.max_album_images - 0))).length)) with hn2
    have hsub : n2.Subperm l := by
      have h1 : n2.Sublist (d ++ w) :=
        List.Sublist.append (get_subset_sublist _ _) (get_subset_sublist _ _)
      exact h1.subperm.trans (bucket_append_subperm today l)
    have hkey := subperm_length_add_filter_le n2 l hsub
    simp only [List.length_append, get_subset_length_eq]
    simp only [List.length_append] at hkey
    omega
  · simp only [get_subset_length_eq]
    omega

/-- Appending the pool fill to a duplicate-free partial selection keeps item ids
duplicate-free, because the pool filter removed every already-selected item. -/
theorem append_fill_nodup (l new2 : List SynoPhotosItemEx) (c : Nat)
    (hsubperm : new2.Subperm l)
    (hnodupl : (l.map (fun it => it.item_id)).Nodup)
    (hnodup2 : (new2.map (fun it => it.item_id)).Nodup) :
    ((new2 ++ _get_subset (l.filter (fun item => decide (¬ item ∈ new2))) c).map
      (fun it => it.item_id)).Nodup := by
  rw [List.map_append, List.nodup_append]
  refine ⟨hnodup2, ?_, ?_⟩
  · have hfill : (_get_subset (l.filter (fun item => decide (¬ item ∈ new2))) c).Sublist l :=
      (get_subset_sublist _ _).trans (List.filter_sublist l)
    exact List.Nodup.sublist (hfill.map _) hnodupl
  · intro a ha1 ha2
    rw [List.mem_map] at ha1 ha2
    obtain ⟨n, hn, rfl⟩ := ha1
    obtain ⟨u, hu, hids⟩ := ha2
    have hu2 : u ∈ l.filter (fun item => decide (¬ item ∈ new2)) :=
      (get_subset_sublist _ _).subset hu
    rw [List.mem_filter] at hu2
    obtain ⟨hul, hup⟩ := hu2
    have hnotin : ¬ u ∈ new2 := by simpa using hup
    have hnl : n ∈ l := hsubperm.subset hn
    have heq : u = n := List.inj_on_of_nodup_map hnodupl hul hnl hids
    exact hnotin (heq ▸ hn)

/-- When the incoming items have pairwise distinct ids, the selection stage
produces pairwise distinct ids. -/
theorem select_from_sorted_nodup (l : List SynoPhotosItemEx) (cfg : AlbumConfig)
    (today : Date) (h : (l.map (fun it => it.item_id)).Nodup) :
    ((select_from_sorted l cfg today).map (fun it => it.item_id)).Nodup := by
  unfold select_from_sorted
  dsimp only
  split_ifs with hbr
  · set d := (bucket_items today l).1 with hd
    set w := (bucket_items today l).2 with hw
    set n2 := _get_subset d (min (daily_max cfg.daily_images cfg.max_album_images)
        (cfg.max_album_images - 0)) ++
      _get_subset w (min (weekly_max cfg.weekly_images cfg.max_album_images)
        (cfg.max_album_images -
          (_get_subset d (min (daily_max cfg.daily_images cfg.max_album_images)
            (cfg.max_album_images - 0))).length)) with hn2
    have hsubdw : n2.Sublist (d ++ w) :=
      List.Sublist.append (get_subset_sublist _ _) (get_subset_sublist _ _)
    have hsubperm : n2.Subperm l := hsubdw.subperm.trans (bucket_append_subperm today l)
    have hnodupdw : ((d ++ w).map (fun it => it.item_id)).Nodup := by
      obtain ⟨l0, hp, hs⟩ := bucket_append_subperm today l
      have hn0 : (l0.map (fun it => it.item_id)).Nodup :=
        List.Nodup.sublist (hs.map _) h
      exact ((hp.map (fun it => it.item_id)).nodup_iff).mp hn0
    have hnodup2 : (n2.map (fun it => it.item_id)).Nodup :=
      List.Nodup.sublist (hsubdw.map _) hnodupdw
    exact append_fill_nodup l n2 _ hsubperm h hnodup2
  · exact List.Nodup.sublist ((get_subset_sublist _ _).map _) h

/-- The recency sort permutes the items. -/
theorem sortByLastViewed_perm (lv : List (Int × Nat)) (items : List SynoPhotosItemEx) :
    (sortByLastViewed lv items).Perm items :=
  List.mergeSort_perm items _

/-- The selection pipeline never exceeds the configured album maximum. -/
theorem select_album_length_le_max (shuffled : List SynoPhotosItemEx)
    (lv : List (Int × Nat)) (cfg : AlbumConfig) (today : Date) :
    (select_album shuffled lv cfg today).length ≤ cfg.max_album_images := by
  unfold select_album
  dsimp only
  split_ifs <;> exact select_from_sorted_length_le_max _ cfg today

/-- The selection pipeline never exceeds the number of source items. -/
theorem select_album_length_le_src (shuffled : List SynoPhotosItemEx)
    (lv : List (Int × Nat)) (cfg : AlbumConfig) (today : Date) :
    (select_album shuffled lv cfg today).length ≤ shuffled.length := by
  unfold select_album
  dsimp only
  split_ifs with h
  · exact select_from_sorted_length_le_src _ cfg today
  · have h1 := select_from_sorted_length_le_src (sortByLastViewed lv shuffled) cfg today
    rwa [(sortByLastViewed_perm lv shuffled).length_eq] at h1

/-- When the shuffled source items have pairwise distinct ids, so does the
selection. -/
theorem select_album_nodup (shuffled : List SynoPhotosItemEx)
    (lv : List (Int × Nat)) (cfg : AlbumConfig) (today : Date)
    (h : (shuffled.map (fun it => it.item_id)).Nodup) :
    ((select_album shuffled lv cfg today).map (fun it => it.item_id)).Nodup := by
  unfold select_album
  dsimp only
  split_ifs with hl
  · exact select_from_sorted_nodup _ cfg today h
  · refine select_from_sorted_nodup _ cfg today ?_
    exact (((sortByLastViewed_perm lv shuffled).map _).nodup_iff).mpr h

/-- C1 (counterexample): with the same photo fetched twice (as happens when one
item belongs to two configured source albums), a rebuild puts the same item id
into the new album twice, so the claimed no-duplicate property fails as stated
for arbitrary fetched source sequences. -/
theorem rebuild_album_duplicate_ids :
    ((rebuild_virtual_album (⟨[], none⟩ : SessionState) (Except.ok (ε := Unit) [itemA, itemA])
        id ⟨2, 0, 0, true⟩ ⟨2023, 6, 15⟩ 0).1.current_album_items.map
      (fun it => it.item_id)) = [1, 1] ∧ ¬ ([1, 1] : List Int).Nodup := by
  constructor
  · rfl
  · decide

/-- C1 (amended): for every previous session state, fetched source sequence,
shuffle that permutes its input, configuration and date, the album produced by
`rebuild_virtual_album` has length at most `max_album_images` and at most the
number of source items; and when the fetched source items have pairwise
distinct item ids, the new album has no two entries with the same id. -/
theorem rebuild_album_bounds {ε : Type} (st : SessionState) (src : List SynoPhotosItemEx)
    (shuffle : List SynoPhotosItemEx → List SynoPhotosItemEx) (cfg : AlbumConfig)
    (today : Date) (today_ordinal : Nat)
    (hsh : (shuffle src).Perm src) :
    ((rebuild_virtual_album (ε := ε) st (Except.ok src) shuffle cfg today
        today_ordinal).1.current_album_items.length ≤ cfg.max_album_images) ∧
    ((rebuild_virtual_album (ε := ε) st (Except.ok src) shuffle cfg today
        today_ordinal).1.current_album_items.length ≤ src.length) ∧
    ((src.map (fun it => it.item_id)).Nodup →
      ((rebuild_virtual_album (ε := ε) st (Except.ok src) shuffle cfg today
        today_ordinal).1.current_album_items.map (fun it => it.item_id)).Nodup) := by
  unfold rebuild_virtual_album
  dsimp only
  refine ⟨select_album_length_le_max _ _ cfg today, ?_, ?_⟩
  · have h1 := select_album_length_le_src (shuffle src)
      (match st.store with
        | some stored_data => stored_data.last_viewed
        | none => []) cfg today
    calc (select_album (shuffle src)
          (match st.store with
            | some stored_data => stored_data.last_viewed
            | none => []) cfg today).length ≤ (shuffle src).length := h1
      _ = src.length := hsh.length_eq
  · intro hnd
    exact select_album_nodup _ _ cfg today (((hsh.map _).nodup_iff).mpr hnd)

/-- C1 (witness): the amended bound theorem applied at a concrete rebuild of
two distinct items with the identity shuffle. -/
theorem rebuild_album_bounds_witness :
    ((rebuild_virtual_album (⟨[], none⟩ : SessionState) (Except.ok (ε := Unit) [itemA, itemB])
        id ⟨1, 0, 0, true⟩ ⟨2023, 6, 15⟩ 0).1.current_album_items.length ≤ 1) ∧
    ((rebuild_virtual_album (⟨[], none⟩ : SessionState) (Except.ok (ε := Unit) [itemA, itemB])
        id ⟨1, 0, 0, true⟩ ⟨2023, 6, 15⟩ 0).1.current_album_items.length ≤
      ([itemA, itemB] : List SynoPhotosItemEx).length) ∧
    (((rebuild_virtual_album (⟨[], none⟩ : SessionState) (Except.ok (ε := Unit) [itemA, itemB])
        id ⟨1, 0, 0, true⟩ ⟨2023, 6, 15⟩ 0).1.current_album_items.map
      (fun it => it.item_id)).Nodup) :=
  have h := rebuild_album_bounds (⟨[], none⟩ : SessionState) [itemA, itemB] id
    ⟨1, 0, 0, true⟩ ⟨2023, 6, 15⟩ 0 (List.Perm.refl _)
  ⟨h.1, h.2.1, h.2.2 (by decide)⟩

/-- C2 (code divergence): the selector computes the daily and weekly caps as
`min(configuredValue, maxItems)`, treating the configured values as absolute
item counts; it does not compute `floor(maxItems * percent / 100)` as the
percent-based configuration (`daily_percent` and `weekly_percent` sliders with
a percent unit) requires. At maxItems 10 and configured value 50, the code's
cap is 10 while the percent formula gives 5. -/
theorem daily_weekly_cap_mismatch :
    daily_max 50 10 = 10 ∧ weekly_max 50 10 = 10 ∧ (10 * 50) / 100 = 5 ∧
    ¬ daily_max 50 10 = (10 * 50) / 100 := by
  decide

/-- C3 (counterexample): on a three-item bucket with two allotted slots,
`_get_subset` deterministically returns the first two items in the bucket's
given recency-sorted order — a front segment of the bucket, not a re-shuffled
random subset. -/
theorem get_subset_front_counterexample :
    _get_subset [itemA, itemB, itemC] 2 = [itemA, itemB] ∧
    [itemA, itemB] ++ [itemC] = [itemA, itemB, itemC] := ⟨rfl, rfl⟩

/-- C3 (amended): whenever a bucket holds more items than its allotted slots,
the selector keeps the leading slots-many items of the bucket in its
recency-sorted order: `_get_subset` equals `List.take` and its result is always
an initial segment of the bucket, with no re-shuffling. -/
theorem get_subset_front_segment (photos : List SynoPhotosItemEx) (n : Nat) :
    _get_subset photos n = photos.take n ∧ ∃ t, _get_subset photos n ++ t = photos := by
  refine ⟨get_subset_eq_take photos n, ⟨photos.drop n, ?_⟩⟩
  rw [get_subset_eq_take]
  exact List.take_append_drop n photos

/-- C4 (counterexample): for June 15 against June 8 — exactly 7 days before the
reference — the spec's symmetric distance formula yields true, but the code's
`is_this_week` returns false: the code only looks forward to the next 7 days. -/
theorem is_this_week_seven_days_before :
    spec_isWithinWeek ⟨2023, 6, 15⟩ ⟨2023, 6, 8⟩ = true ∧
    is_this_week ⟨2023, 6, 15⟩ ⟨2023, 6, 8⟩ = false := by
  decide

/-- C4 (amended): `is_this_week` is a forward-only window: it returns true iff
the candidate's adjusted day-of-year is at most 7 days after the reference's,
counting forward with year-length wraparound when the candidate's day-of-year
precedes the reference's. A candidate 7 days after the reference returns true,
8 days after returns false, 7 days before returns false, and the wraparound
case Dec 30 against Jan 2 returns true. -/
theorem is_this_week_forward_window :
    (∀ r c : Date, is_this_week r c = true ↔
      ((dayOfYear (_make_day_comparable r c).1 : Int) ≤ dayOfYear (_make_day_comparable r c).2 ∧
        (dayOfYear (_make_day_comparable r c).2 : Int) - dayOfYear (_make_day_comparable r c).1 ≤ 7) ∨
      ((dayOfYear (_make_day_comparable r c).2 : Int) < dayOfYear (_make_day_comparable r c).1 ∧
        (dayOfYear (_make_day_comparable r c).2 : Int) +
          dayOfYear { (_make_day_comparable r c).1 with month := 12, day := 31 } -
          dayOfYear (_make_day_comparable r c).1 ≤ 7)) ∧
    is_this_week ⟨2024, 3, 10⟩ ⟨2024, 3, 17⟩ = true ∧
    is_this_week ⟨2024, 3, 10⟩ ⟨2024, 3, 18⟩ = false ∧
    is_this_week ⟨2024, 3, 10⟩ ⟨2024, 3, 3⟩ = false ∧
    is_this_week ⟨2023, 12, 30⟩ ⟨2024, 1, 2⟩ = true := by
  refine ⟨?_, by decide, by decide, by decide, by decide⟩
  intro r c
  unfold is_this_week
  dsimp only
  split_ifs with h
  · simp only [decide_eq_true_eq]; omega
  · simp only [decide_eq_true_eq]; omega

/-- C5 (counterexample): with a flush in flight, an elapsed interval and a
non-empty buffer, the trigger keeps the buffered pair in the in-memory buffer
(it is not discarded) and starts no save; only the warning is emitted. -/
theorem queue_cache_write_retained_buffer :
    (_queue_cache_write ⟨some 0, true, [(1, 5)]⟩ 700).1.last_viewed = [(1, 5)] ∧
    (_queue_cache_write ⟨some 0, true, [(1, 5)]⟩ 700).2.1 = none ∧
    (_queue_cache_write ⟨some 0, true, [(1, 5)]⟩ 700).2.2 = true := by
  decide

/-- C5 (amended): whenever the flush interval has elapsed but a previous flush
task is still in flight, the trigger starts no new save, logs the warning, and
leaves the whole flush state — including the buffered pairs and the last-flush
time — unchanged, so the buffered data stays eligible for a later attempt. -/
theorem queue_cache_write_contention (st : FlushState) (now last : Nat)
    (hl : st.last_store = some last) (hrun : st.running_store = true)
    (hdue : now - last > STORE_INTERVAL_SECONDS) :
    _queue_cache_write st now = (st, none, true) := by
  unfold _queue_cache_write
  rw [hl]
  dsimp only
  rw [if_pos hdue, if_neg (by simp [hrun])]

/-- C5 (witness): the contention theorem applied at a concrete in-flight state
with an elapsed interval. -/
theorem queue_cache_write_contention_witness :
    (⟨some 0, true, [(1, 5)]⟩ : FlushState).last_store = some 0 ∧
    (⟨some 0, true, [(1, 5)]⟩ : FlushState).running_store = true ∧
    700 - 0 > STORE_INTERVAL_SECONDS ∧
    _queue_cache_write ⟨some 0, true, [(1, 5)]⟩ 700 =
      (⟨some 0, true, [(1, 5)]⟩, none, true) :=
  ⟨rfl, rfl, by decide, queue_cache_write_contention ⟨some 0, true, [(1, 5)]⟩ 700 0
    rfl rfl (by decide)⟩

/-- C6 (counterexample): the startup task `_async_init` populates the active
album from the persisted album ids before any `get_virtual_album_items` call or
explicit rebuild, so the album is not empty at session start whenever persisted
state matches a source item. -/
theorem async_init_restores_album :
    _async_init (some ⟨[1], []⟩) [itemA] = [itemA] ∧
    _async_init (some ⟨[1], []⟩) [itemA] ≠ [] := by
  constructor
  · rfl
  · decide

/-- C6 (amended): the active album starts empty and stays empty through startup
when no persisted album exists; the startup task may however repopulate it from
the persisted album ids, each restored item coming from the fetched source
items with its id among the persisted ids; every successful rebuild replaces
the album with a result independent of the previous album (full replace, never
merge); and `get_virtual_album_items` on a non-empty album returns it unchanged
without rebuilding. -/
theorem session_album_lifecycle :
    (∀ src, _async_init none src = []) ∧
    (∀ lv src, _async_init (some ⟨[], lv⟩) src = []) ∧
    (∀ sd src x, x ∈ _async_init (some sd) src →
      x ∈ src ∧ x.item_id ∈ sd.current_album) ∧
    (∀ (ε : Type) (a1 a2 : List SynoPhotosItemEx) (store : Option StorageData)
        (src : List SynoPhotosItemEx) shuffle cfg today ord,
      (rebuild_virtual_album (ε := ε) ⟨a1, store⟩ (Except.ok src) shuffle cfg today ord).1 =
        (rebuild_virtual_album (ε := ε) ⟨a2, store⟩ (Except.ok src) shuffle cfg today ord).1) ∧
    (∀ (ε : Type) (st : SessionState) fetch shuffle cfg today ord,
      st.current_album_items ≠ [] →
      get_virtual_album_items (ε := ε) st fetch shuffle cfg today ord
        = (st, Except.ok st.current_album_items)) := by
  refine ⟨fun src => rfl, fun lv src => rfl, ?_,
    fun ε a1 a2 store src shuffle cfg today ord => rfl, ?_⟩
  · intro sd src x hx
    unfold _async_init at hx
    dsimp only at hx
    split_ifs at hx with h
    · cases hx
    · rw [List.mem_filterMap] at hx
      obtain ⟨i, hmem, hfind⟩ := hx
      refine ⟨List.mem_of_find?_eq_some hfind, ?_⟩
      have hp := List.find?_some hfind
      simp only [beq_iff_eq] at hp
      rwa [hp]
  · intro ε st fetch shuffle cfg today ord h
    unfold get_virtual_album_items
    rw [if_neg (by simpa [List.isEmpty_iff] using h)]

/-- C6 (witness): the lifecycle theorem applied at concrete inputs — an absent
store, a restored item, and a cached non-empty album. -/
theorem session_album_lifecycle_witness :
    _async_init none [itemA] = [] ∧
    (itemB ∈ [itemB] ∧ itemB.item_id ∈ ([2] : List Int)) ∧
    get_virtual_album_items (⟨[itemA], none⟩ : SessionState) (Except.ok (ε := Unit) [])
      id ⟨0, 0, 0, true⟩ ⟨2023, 1, 1⟩ 0
      = (⟨[itemA], none⟩, Except.ok [itemA]) :=
  ⟨session_album_lifecycle.1 [itemA],
    session_album_lifecycle.2.2.1 ⟨[2], []⟩ [itemB] itemB (by decide),
    session_album_lifecycle.2.2.2.2 Unit ⟨[itemA], none⟩ (Except.ok []) id
      ⟨0, 0, 0, true⟩ ⟨2023, 1, 1⟩ 0 (by decide)⟩

/-- C7: when the source-item fetch fails, the exception propagates out of
`rebuild_virtual_album` and the whole session state — in particular the active
album — is exactly its previous value: a failed rebuild is all-or-nothing. -/
theorem rebuild_failure_leaves_album {ε : Type} (st : SessionState) (e : ε)
    (shuffle : List SynoPhotosItemEx → List SynoPhotosItemEx) (cfg : AlbumConfig)
    (today : Date) (today_ordinal : Nat) :
    rebuild_virtual_album st (Except.error e) shuffle cfg today today_ordinal
      = (st, Except.error e) ∧
    (rebuild_virtual_album st (Except.error e) shuffle cfg today
      today_ordinal).1.current_album_items = st.current_album_items :=
  ⟨rfl, rfl⟩

/-- C8: a February 29 date of a leap year and a February 28 date of a non-leap
year are treated as the same day by `is_today` (with the reference date passed
explicitly), in both argument orders: the leap day is rewritten to February 28
before month and day are compared. -/
theorem is_today_leap_day (y1 y2 : Nat) (hl1 : isleap y1 = true) (hl2 : isleap y2 = false) :
    is_today ⟨y1, 2, 29⟩ ⟨y2, 2, 28⟩ = true ∧ is_today ⟨y2, 2, 28⟩ ⟨y1, 2, 29⟩ = true := by
  constructor
  · simp [is_today, _make_day_comparable, hl1, hl2]
  · simp [is_today, _make_day_comparable, hl1, hl2]

/-- C8 (witness): the leap-day theorem applied at the years 2024 and 2023. -/
theorem is_today_leap_day_witness :
    isleap 2024 = true ∧ isleap 2023 = false ∧
    (is_today ⟨2024, 2, 29⟩ ⟨2023, 2, 28⟩ = true ∧
      is_today ⟨2023, 2, 28⟩ ⟨2024, 2, 29⟩ = true) :=
  ⟨by decide, by decide, is_today_leap_day 2024 2023 (by decide) (by decide)⟩

/-- C9: when no current-image entity is configured, a successful rebuild writes
to the durable store a last-viewed entry equal to the rebuild day's ordinal for
every item id selected into the new album. -/
theorem rebuild_marks_new_items_viewed {ε : Type} (st : SessionState)
    (src : List SynoPhotosItemEx) (shuffle : List SynoPhotosItemEx → List SynoPhotosItemEx)
    (cfg : AlbumConfig) (today : Date) (today_ordinal : Nat) (st2 : SessionState)
    (r : Except ε Unit)
    (hcfg : cfg.has_current_image = false)
    (hreb : rebuild_virtual_album st (Except.ok src) shuffle cfg today today_ordinal = (st2, r))
    (i : Int) (hi : i ∈ st2.current_album_items.map (fun item => item.item_id)) :
    ∃ sd, st2.store = some sd ∧ dictGet sd.last_viewed i = some today_ordinal := by
  unfold rebuild_virtual_album at hreb
  simp only [hcfg, Bool.false_eq_true, if_false] at hreb
  rw [Prod.mk.injEq] at hreb
  obtain ⟨hst, -⟩ := hreb
  subst hst
  refine ⟨_, rfl, ?_⟩
  rw [write_store_last_viewed]
  simp only at hi
  have hne : ¬ ((List.map (fun item => item.item_id)
      (select_album (shuffle src)
        (match st.store with
          | some stored_data => stored_data.last_viewed
          | none => []) cfg today)).map (fun i => (i, today_ordinal))).isEmpty = true := by
    rcases hx : List.map (fun item => item.item_id)
        (select_album (shuffle src)
          (match st.store with
            | some stored_data => stored_data.last_viewed
            | none => []) cfg today) with _ | ⟨a, tl⟩
    · rw [hx] at hi; cases hi
    · simp
  rw [if_neg hne]
  exact dictGet_dictUpdate_const _ _ _ _ hi

/-- C9 (witness): the marking theorem applied at a concrete one-item rebuild
without a configured current-image entity. -/
theorem rebuild_marks_new_items_viewed_witness :
    ∃ sd, (⟨[itemA], some ⟨[1], [(1, 738000)]⟩⟩ : SessionState).store = some sd ∧
      dictGet sd.last_viewed 1 = some 738000 :=
  rebuild_marks_new_items_viewed (ε := Unit) (⟨[], none⟩ : SessionState) [itemA] id
    ⟨1, 0, 0, false⟩ ⟨2023, 6, 15⟩ 738000
    ⟨[itemA], some ⟨[1], [(1, 738000)]⟩⟩ (Except.ok ()) rfl rfl 1 (by decide)

/-- C10: `_make_day_comparable` is total on valid dates — both returned dates
are valid (no `replace` call can raise), and when the two input years have the
same leapness both dates are returned unchanged. -/
theorem make_day_comparable_total (d1 d2 : Date) (h1 : d1.valid) (h2 : d2.valid) :
    ((_make_day_comparable d1 d2).1.valid ∧ (_make_day_comparable d1 d2).2.valid) ∧
    (isleap d1.year = isleap d2.year → _make_day_comparable d1 d2 = (d1, d2)) := by
  have h28 : ∀ (y m : Nat), 1 ≤ m → m ≤ 12 → m = 2 → (Date.mk y m 28).valid := by
    intro y m le ge hm2
    unfold Date.valid
    dsimp only
    refine ⟨le, ge, by omega, ?_⟩
    subst hm2
    cases h : isleap y <;> simp [daysInMonth]
  refine ⟨?_, fun heq => by unfold _make_day_comparable; rw [if_neg (by simp [heq])]⟩
  by_cases hne : isleap d1.year ≠ isleap d2.year
  · by_cases ha : d1.month = 2 ∧ d1.day = 29
    · have hl1 : isleap d1.year = true := feb29_leap h1 ha.1 ha.2
      have hl2 : isleap d2.year = false := by
        cases h : isleap d2.year
        · rfl
        · exact absurd (hl1.trans h.symm) hne
      unfold _make_day_comparable
      rw [if_pos hne, if_pos ha]
      dsimp only
      simp only [hl2, Bool.false_eq_true, if_false]
      exact ⟨h28 d2.year d1.month h1.1 h1.2.1 ha.1, h2⟩
    · by_cases hb : d2.month = 2 ∧ d2.day = 29
      · have hl2 : isleap d2.year = true := feb29_leap h2 hb.1 hb.2
        have hl1 : isleap d1.year = false := by
          cases h : isleap d1.year
          · rfl
          · exact absurd (h.trans hl2.symm) hne
        unfold _make_day_comparable
        rw [if_pos hne, if_neg ha, if_pos hb]
        dsimp only
        simp only [hl1, Bool.false_eq_true, if_false]
        exact ⟨h1, h28 d1.year d2.month h2.1 h2.2.1 hb.1⟩
      · unfold _make_day_comparable
        rw [if_pos hne, if_neg ha, if_neg hb]
        dsimp only
        cases hc : isleap d1.year
        · have hd : isleap d2.year = true := by
            cases h : isleap d2.year
            · exact absurd (hc.trans h.symm) hne
            · rfl
          simp only [hc, hd, Bool.false_eq_true, if_false, if_true]
          exact ⟨h1, valid_year_change d1.year h2 hb⟩
        · have hd : isleap d2.year = false := by
            cases h : isleap d2.year
            · rfl
            · exact absurd (hc.trans h.symm) hne
          simp only [hc, hd, Bool.false_eq_true, if_false, if_true]
          exact ⟨valid_year_change d2.year h1 ha, h2⟩
  · unfold _make_day_comparable
    rw [if_neg hne]
    exact ⟨h1, h2⟩

/-- C10 (witness): totality applied at February 29 of 2024 against March 5 of
2023. -/
theorem make_day_comparable_total_witness :
    (⟨2024, 2, 29⟩ : Date).valid ∧ (⟨2023, 3, 5⟩ : Date).valid ∧
    (((_make_day_comparable ⟨2024, 2, 29⟩ ⟨2023, 3, 5⟩).1.valid ∧
        (_make_day_comparable ⟨2024, 2, 29⟩ ⟨2023, 3, 5⟩).2.valid) ∧
      (isleap (2024 : Nat) = isleap (2023 : Nat) →
        _make_day_comparable ⟨2024, 2, 29⟩ ⟨2023, 3, 5⟩ = (⟨2024, 2, 29⟩, ⟨2023, 3, 5⟩))) :=
  ⟨by decide, by decide,
    make_day_comparable_total ⟨2024, 2, 29⟩ ⟨2023, 3, 5⟩ (by decide) (by decide)⟩
